import Mathlib

/-!
Shallow embedding of `sox_realtime_stt_streamer.py` (class `SoxRealtimeSTTStreamer`
and `main`).  The external world (sox recorder, faster-whisper engine, TCP socket)
is modelled as an environment value consumed by each loop iteration; the loop body
of `record_and_process_audio` becomes a step function from state and environment
to a list of observable events plus the successor state.  Times are modelled as
integer seconds (the Python code uses `time.time()` floats only for comparisons
and message payloads).
-/

namespace STT

/-- Constant `max_retries = 5` from `connect_to_nodejs`. -/
def max_retries : Nat := 5

/-- Constant `retry_delay = 2` (seconds) from `connect_to_nodejs`. -/
def retry_delay : Nat := 2

/-- Byte-size threshold `file_size > 8000` from `record_and_process_audio`. -/
def size_threshold : Nat := 8000

/-- Minimum meaningful trimmed length `len(transcription.strip()) > 2`. -/
def meaningful_len : Nat := 2

/-- Heartbeat cadence `current_time - self.last_heartbeat > 30` (seconds). -/
def heartbeat_interval : Int := 30

/-- Inner `signal.alarm(5)` deadline inside the spawned transcription script. -/
def transcribe_alarm_seconds : Nat := 5

/-- Outer `subprocess.run(..., timeout=8)` process-level timeout. -/
def transcribe_subprocess_timeout : Nat := 8

/-- Inter-iteration pause `time.sleep(0.2)`, in milliseconds. -/
def inter_iteration_pause_ms : Nat := 200

/-- Post-error pause `time.sleep(2)` in the recording-error handler, in ms. -/
def error_pause_ms : Nat := 2000

/-- Observable events of one run: subprocess invocations, socket writes,
file removals and sleeps, tagged with the segment sequence number where the
code associates one. -/
inductive Event where
  | soxRecord (seq : Nat)
  | engineInvoke (seq : Nat)
  | enginePkill
  | stderrLogged
  | deliveryAttempt (seq : Nat) (line : String) (ok : Bool)
  | heartbeat (ok : Bool)
  | connectTry (ok : Bool)
  | sleepMs (ms : Nat)
  | unlink (seq : Nat)
  deriving DecidableEq

/-- Outcome of one `socket.connect` call: success, `ConnectionRefusedError`
(the only exception the loop in `connect_to_nodejs` catches), or any other
exception such as `socket.gaierror` or `OSError`. -/
inductive ConnectOutcome where
  | ok
  | refused
  | raised
  deriving DecidableEq

/-- Result of `connect_to_nodejs`: returned `True`, returned `False` after the
budget, or an exception propagated out of the function uncaught. -/
inductive ConnectResult where
  | connected
  | exhausted
  | uncaught
  deriving DecidableEq

structure ConnectOut where
  result : ConnectResult
  events : List Event
  deriving DecidableEq

/-- The `for attempt in range(max_retries)` loop of `connect_to_nodejs`:
`f i` is what the `i`-th `socket.connect` call does.  On `ConnectionRefusedError`
the code closes the socket, sleeps `retry_delay` seconds and retries; any other
exception propagates uncaught. -/
def connectGo (f : Nat → ConnectOutcome) : Nat → Nat → ConnectOut
  | _, 0 => ⟨.exhausted, []⟩
  | i, r + 1 =>
    match f i with
    | .ok => ⟨.connected, [.connectTry true]⟩
    | .refused =>
      ⟨(connectGo f (i + 1) r).result,
       .connectTry false :: .sleepMs (1000 * retry_delay) :: (connectGo f (i + 1) r).events⟩
    | .raised => ⟨.uncaught, [.connectTry false]⟩

/-- `connect_to_nodejs`: up to `max_retries` attempts starting at attempt 0. -/
def connect_to_nodejs (f : Nat → ConnectOutcome) : ConnectOut :=
  connectGo f 0 max_retries

/-- Lower-case hex digit, as produced by `json.dumps` unicode escapes. -/
def hexDigit (n : Nat) : Char :=
  if n < 10 then Char.ofNat (48 + n) else Char.ofNat (87 + n)

/-- Four lower-case hex digits of a 16-bit code unit. -/
def u16hex (n : Nat) : String :=
  String.mk [hexDigit (n / 4096 % 16), hexDigit (n / 256 % 16),
             hexDigit (n / 16 % 16), hexDigit (n % 16)]

/-- Escaping of one character by `json.dumps` (default `ensure_ascii=True`):
printable ASCII other than quote and backslash is kept, everything else is
escaped, with surrogate pairs above the BMP. -/
def escapeJsonChar (c : Char) : String :=
  if c = '"' then "\\\""
  else if c = '\\' then "\\\\"
  else if c = '\n' then "\\n"
  else if c = '\r' then "\\r"
  else if c = '\t' then "\\t"
  else if c.toNat = 8 then "\\b"
  else if c.toNat = 12 then "\\f"
  else if c.toNat < 32 ∨ 126 < c.toNat then
    if c.toNat ≤ 65535 then "\\u" ++ u16hex c.toNat
    else
      "\\u" ++ u16hex (55296 + (c.toNat - 65536) / 1024) ++
      "\\u" ++ u16hex (56320 + (c.toNat - 65536) % 1024)
  else String.singleton c

/-- `json.dumps` of a Python string value. -/
def pyJsonStr (s : String) : String :=
  "\"" ++ String.join (s.data.map escapeJsonChar) ++ "\""

/-- The serialized transcription record built in `send_transcription`:
`json.dumps({'type': 'transcription', 'text': text, 'timestamp': time.time(),
'isFinal': is_final})` with Python dict insertion order and default separators. -/
def transcriptionWireBody (text : String) (ts : Int) (is_final : Bool) : String :=
  "\x7b\"type\": \"transcription\", \"text\": " ++ pyJsonStr text ++
  ", \"timestamp\": " ++ toString ts ++
  ", \"isFinal\": " ++ (if is_final then "true" else "false") ++ "\x7d"

/-- The full line written to the socket: the JSON record plus `'\n'`. -/
def transcriptionWireLine (text : String) (ts : Int) (is_final : Bool) : String :=
  transcriptionWireBody text ts is_final ++ "\n"

/-- `send_transcription`: returns `False` immediately when `self.socket` is
falsy; otherwise builds the line, attempts `socket.send` (whose success is the
environment's `sendOk`), returns `True` on success and `False` on any
exception (caught inside the function).  The second component is the line
handed to `socket.send`, when an attempt was made. -/
def send_transcription (socketTruthy : Bool) (sendOk : Bool) (text : String)
    (now : Int) (is_final : Bool) : Bool × Option String :=
  if socketTruthy = true then (sendOk, some (transcriptionWireLine text now is_final))
  else (false, none)

/-- Behaviour of the spawned faster-whisper engine inside the inner script:
it either produces text fragments after `secs` seconds of work, hangs
without the inner alarm ever firing, or raises an exception; additionally the
outer `subprocess.run` call itself may fail to spawn. -/
inductive EngineRun where
  | yields (segs : List String) (secs : Nat)
  | hangs
  | raisesExc (msg : String)
  | spawnFails
  deriving DecidableEq

/-- What the orchestrator observes of the transcription subprocess:
`subprocess.TimeoutExpired`, a completed process with return code, stdout and
stderr, or some other exception from `subprocess.run`. -/
inductive EngineOutcome where
  | timedOut
  | completed (returncode : Int) (stdout : String) (stderr : String)
  | raisedOther
  deriving DecidableEq

/-- Python `str.strip()` with no argument: leading and trailing whitespace
removed (modelled over the ASCII whitespace characters). -/
def pyStrip (s : String) : String :=
  String.mk (((s.data.dropWhile Char.isWhitespace).reverse.dropWhile
    Char.isWhitespace).reverse)

/-- The inner script's text assembly: `text += segment.text.strip() + " "`
over all segments, then `print(text.strip())`. -/
def joinSegs (segs : List String) : String :=
  pyStrip (String.intercalate " " (segs.map pyStrip))

/-- Wall-clock completion time of the inner script, when it completes at all:
work is cut off by the `signal.alarm` deadline; a raising run fails fast; a
hanging run never completes. -/
def engineCompletionTime : EngineRun → Option Nat
  | .yields _ secs => some (min secs transcribe_alarm_seconds)
  | .raisesExc _ => some 0
  | .hangs => none
  | .spawnFails => some 0

/-- Exit of the inner script when it completes: the alarm handler prints its
message to stdout and exits 1; an exception prints `Error: ...` to stderr and
exits 1; otherwise the joined text goes to stdout with exit 0. -/
def innerExitOutcome : EngineRun → Int × String × String
  | .yields segs secs =>
    if transcribe_alarm_seconds ≤ secs then (1, "⏰ Transcription timeout", "")
    else (0, joinSegs segs, "")
  | .raisesExc m => (1, "", "Error: " ++ m)
  | .hangs => (1, "", "")
  | .spawnFails => (1, "", "")

/-- The outer `subprocess.run(cmd, ..., timeout=8)`: `TimeoutExpired` when the
inner script has not completed within the process-level timeout, otherwise the
completed process's observables. -/
def runWhisperSubprocess (r : EngineRun) : EngineOutcome :=
  match r with
  | .spawnFails => .raisedOther
  | _ =>
    match engineCompletionTime r with
    | none => .timedOut
    | some t =>
      if transcribe_subprocess_timeout < t then .timedOut
      else .completed (innerExitOutcome r).1 (innerExitOutcome r).2.1 (innerExitOutcome r).2.2

/-- `transcribe_audio_chunk` after the subprocess completed or failed:
returns `result.stdout.strip()` when the return code is 0 and stripped stdout
is non-empty; otherwise logs stderr when present and returns `""`.  On
`TimeoutExpired` it pkills hanging engine processes and returns `""`; on any
other exception it returns `""`. -/
def transcribe_audio_chunk : EngineOutcome → String × List Event
  | .timedOut => ("", [.enginePkill])
  | .raisedOther => ("", [])
  | .completed rc out err =>
    if rc = 0 ∧ pyStrip out ≠ "" then (pyStrip out, [])
    else ("", if err ≠ "" then [.stderrLogged] else [])

/-- Composition: what one call of `transcribe_audio_chunk` yields given the
engine's behaviour. -/
def transcribe_of_run (r : EngineRun) : String × List Event :=
  transcribe_audio_chunk (runWhisperSubprocess r)

/-- The size gate `file_size > 8000` of `record_and_process_audio`. -/
def isWorthTranscribing (byteSize : Nat) : Bool :=
  decide (size_threshold < byteSize)

/-- The text gate `transcription and len(transcription.strip()) > 2`. -/
def isMeaningfulText (t : String) : Bool :=
  !t.isEmpty && decide (meaningful_len < (pyStrip t).length)

/-- Outcome of the sox recording subprocess for one iteration: a completed
process (return code, whether the output file exists, its byte size),
`subprocess.TimeoutExpired`, or any other exception escaping the loop body
(each carrying whether a partial file was created). -/
inductive SoxOutcome where
  | completed (returncode : Int) (fileCreated : Bool) (fileSize : Nat)
  | timedOut (fileCreated : Bool)
  | raised (fileCreated : Bool)

/-- Environment of one loop iteration: what the external processes, clock and
socket do during it. -/
structure Env where
  sox : SoxOutcome
  engine : EngineRun
  sendOk : Bool
  sendNow : Int
  now : Int
  heartbeatOk : Bool
  socketClosedObserved : Bool
  reconnect : Nat → ConnectOutcome

/-- The mutable state of `SoxRealtimeSTTStreamer` the loop reads and writes:
`segment_counter`, `last_heartbeat`, and whether `self.socket` is truthy. -/
structure LoopState where
  segmentCounter : Nat
  lastHeartbeat : Int
  socketTruthy : Bool

/-- Result of one loop iteration: events, successor state, and whether the
loop survives (an exception escaping the handler kills the thread). -/
structure IterOut where
  events : List Event
  state : LoopState
  alive : Bool

/-- The heartbeat block: when more than `heartbeat_interval` seconds have
passed since `last_heartbeat`, attempt `self.socket.send` of the keepalive
record; on success update `last_heartbeat` to `current_time`; every failure
(including `self.socket` being `None`) is swallowed by the bare `except`. -/
def heartbeatStep (lastHb : Int) (socketTruthy : Bool) (now : Int)
    (hbOk : Bool) : List Event × Int :=
  if heartbeat_interval < now - lastHb then
    if socketTruthy = true ∧ hbOk = true then ([.heartbeat true], now)
    else ([.heartbeat false], lastHb)
  else ([], lastHb)

/-- The delivery-attempt event of one `send_transcription` call, when the
call reached `socket.send` at all. -/
def deliveryOf (seq : Nat) : Bool × Option String → List Event
  | (ok, some line) => [Event.deliveryAttempt seq line ok]
  | (_, none) => []

/-- The transcription part of a successful sox iteration: the size gate, the
engine invocation, the text gate and the delivery attempt, whose returned
success flag the loop discards. -/
def completedBody (seq : Nat) (socketTruthy sendOk : Bool) (sendNow : Int)
    (engine : EngineRun) (rc : Int) (fc : Bool) (size : Nat) : List Event :=
  if rc = 0 ∧ fc = true then
    if isWorthTranscribing size = true then
      if isMeaningfulText (transcribe_of_run engine).1 = true then
        Event.engineInvoke seq :: (transcribe_of_run engine).2 ++
          deliveryOf seq
            (send_transcription socketTruthy sendOk (transcribe_of_run engine).1 sendNow true)
      else Event.engineInvoke seq :: (transcribe_of_run engine).2
    else []
  else []

/-- One iteration of the `while self.running` body of
`record_and_process_audio`.  The segment counter is incremented right after
the file name is formed; on a completed sox run with return code 0 and an
existing file above the size gate the engine is invoked and a meaningful
result is sent (the returned success flag of `send_transcription` is
discarded); then the heartbeat block, unconditional cleanup of the audio
file, and the inter-iteration pause.  `TimeoutExpired` from sox cleans up and
continues; any other exception cleans up, reconnects when the socket is falsy
or observed closed, sleeps and continues — unless the reconnect call itself
raises uncaught, which kills the thread. -/
def loopIteration (st : LoopState) (env : Env) : IterOut :=
  match env.sox with
  | .timedOut fc =>
    ⟨.soxRecord st.segmentCounter ::
       (if fc = true then [Event.unlink st.segmentCounter] else []),
     { st with segmentCounter := st.segmentCounter + 1 }, true⟩
  | .raised fc =>
    if st.socketTruthy = false ∨ env.socketClosedObserved = true then
      if (connect_to_nodejs env.reconnect).result = .uncaught then
        ⟨.soxRecord st.segmentCounter ::
           (if fc = true then [Event.unlink st.segmentCounter] else []) ++
           (connect_to_nodejs env.reconnect).events,
         { st with segmentCounter := st.segmentCounter + 1, socketTruthy := true }, false⟩
      else
        ⟨.soxRecord st.segmentCounter ::
           (if fc = true then [Event.unlink st.segmentCounter] else []) ++
           (connect_to_nodejs env.reconnect).events ++ [.sleepMs error_pause_ms],
         { st with segmentCounter := st.segmentCounter + 1, socketTruthy := true }, true⟩
    else
      ⟨.soxRecord st.segmentCounter ::
         (if fc = true then [Event.unlink st.segmentCounter] else []) ++
         [.sleepMs error_pause_ms],
       { st with segmentCounter := st.segmentCounter + 1 }, true⟩
  | .completed rc fc size =>
    ⟨.soxRecord st.segmentCounter ::
       completedBody st.segmentCounter st.socketTruthy env.sendOk env.sendNow
         env.engine rc fc size ++
       (heartbeatStep st.lastHeartbeat st.socketTruthy env.now env.heartbeatOk).1 ++
       (if fc = true then [Event.unlink st.segmentCounter] else []) ++
       [.sleepMs inter_iteration_pause_ms],
     { st with segmentCounter := st.segmentCounter + 1,
               lastHeartbeat :=
                 (heartbeatStep st.lastHeartbeat st.socketTruthy env.now env.heartbeatOk).2 },
     true⟩

/-- The loop `record_and_process_audio`, driven by a finite list of
per-iteration environments (the run ends when the `running` flag is cleared,
here: when the list is exhausted, or when the thread dies). -/
def record_and_process_audio (st : LoopState) : List Env → List Event × LoopState
  | [] => ([], st)
  | e :: es =>
    if (loopIteration st e).alive = true then
      ((loopIteration st e).events ++
         (record_and_process_audio (loopIteration st e).state es).1,
       (record_and_process_audio (loopIteration st e).state es).2)
    else ((loopIteration st e).events, (loopIteration st e).state)

/-- Whether the iteration's sox invocation left an audio file on disk. -/
def artifactCreated (env : Env) : Bool :=
  match env.sox with
  | .completed _ fc _ => fc
  | .timedOut fc => fc
  | .raised fc => fc

/-- Teardown actions of the `finally` block of `start_streaming`. -/
inductive TeardownEvent where
  | closeSocket
  | rmtreeTempDir
  deriving DecidableEq

/-- The `finally` block of `start_streaming`: close the socket when truthy,
then `shutil.rmtree(self.temp_dir)` when the directory exists. -/
def start_streaming_teardown (socketTruthy tempDirExists : Bool) : List TeardownEvent :=
  (if socketTruthy = true then [TeardownEvent.closeSocket] else []) ++
  (if tempDirExists = true then [TeardownEvent.rmtreeTempDir] else [])

/-- How `main` ends: early `return` after `connect_to_nodejs` returned
`False`, a crash from an exception `connect_to_nodejs` did not catch, or a
full streaming run. -/
inductive MainResult where
  | abortedNoConnect
  | crashed
  | streamed
  deriving DecidableEq

/-- `main`: construct the streamer (counter 0, fresh `last_heartbeat`, no
socket yet), call `connect_to_nodejs`, and only on success start the
capture loop. -/
def mainRun (t0 : Int) (f : Nat → ConnectOutcome) (envs : List Env) :
    MainResult × List Event :=
  match (connect_to_nodejs f).result with
  | .connected =>
    (.streamed, (connect_to_nodejs f).events ++
      (record_and_process_audio ⟨0, t0, true⟩ envs).1)
  | .exhausted => (.abortedNoConnect, (connect_to_nodejs f).events)
  | .uncaught => (.crashed, (connect_to_nodejs f).events)

/-- Sequence number carried by an event, when the code ties it to a segment. -/
def eventSeq : Event → Option Nat
  | .soxRecord s => some s
  | .engineInvoke s => some s
  | .deliveryAttempt s _ _ => some s
  | .unlink s => some s
  | _ => none

def isConnectTry : Event → Bool
  | .connectTry _ => true
  | _ => false

def isHeartbeatEvent : Event → Bool
  | .heartbeat _ => true
  | _ => false

def isDelivery : Event → Bool
  | .deliveryAttempt _ _ _ => true
  | _ => false

/-- Selector of capture (sox invocation) events. -/
def captureSeqF : Event → Option Nat
  | .soxRecord s => some s
  | _ => none

def captureSeqs (tr : List Event) : List Nat :=
  tr.filterMap captureSeqF

/-- Selector of delivery-attempt events. -/
def deliverySeqF : Event → Option Nat
  | .deliveryAttempt s _ _ => some s
  | _ => none

def deliverySeqs (tr : List Event) : List Nat :=
  tr.filterMap deliverySeqF

def allSeqs (tr : List Event) : List Nat :=
  tr.filterMap eventSeq

def deliveryEvents (tr : List Event) : List Event :=
  tr.filter isDelivery

def nonHeartbeatEvents (tr : List Event) : List Event :=
  tr.filter fun e => !isHeartbeatEvent e

/-- Two iteration environments that agree on everything except whether the
heartbeat socket write succeeds. -/
def Env.sameExceptHeartbeat (a b : Env) : Prop :=
  a.sox = b.sox ∧ a.engine = b.engine ∧ a.sendOk = b.sendOk ∧
  a.sendNow = b.sendNow ∧ a.now = b.now ∧
  a.socketClosedObserved = b.socketClosedObserved ∧ a.reconnect = b.reconnect

/-- Heterogeneous equality of sox outcomes is definitional equality; spelled
out so concrete environments below can be compared by `decide`-free reasoning. -/
def initialState : LoopState := ⟨0, 0, true⟩

/-- Environment of a normal iteration that captures a 20000-byte segment,
transcribes `"hello world"`, and whose content `socket.send` raises. -/
def envSendFails : Env :=
  { sox := .completed 0 true 20000, engine := .yields ["hello world"] 1,
    sendOk := false, sendNow := 100, now := 1, heartbeatOk := true,
    socketClosedObserved := false, reconnect := fun _ => .ok }

/-- Environment of the following iteration: another good segment whose
delivery attempt completes (successfully). -/
def envSendSucceeds : Env :=
  { sox := .completed 0 true 20000, engine := .yields ["ok then"] 1,
    sendOk := true, sendNow := 200, now := 2, heartbeatOk := true,
    socketClosedObserved := false, reconnect := fun _ => .ok }

/-- Environment capturing a small (500-byte) segment. -/
def envSmallSegment : Env :=
  { sox := .completed 0 true 500, engine := .yields ["should not run"] 1,
    sendOk := true, sendNow := 100, now := 1, heartbeatOk := true,
    socketClosedObserved := false, reconnect := fun _ => .ok }

/-- Environment whose engine yields a two-character result. -/
def envShortText : Env :=
  { sox := .completed 0 true 20000, engine := .yields [" a "] 1,
    sendOk := true, sendNow := 100, now := 1, heartbeatOk := true,
    socketClosedObserved := false, reconnect := fun _ => .ok }

/-- Environment with a due, failing heartbeat. -/
def envHeartbeatFails : Env :=
  { sox := .completed 0 true 500, engine := .yields [] 1,
    sendOk := true, sendNow := 100, now := 40, heartbeatOk := false,
    socketClosedObserved := false, reconnect := fun _ => .ok }

/-- Environment with a due, succeeding heartbeat at a later time. -/
def envHeartbeatOk : Env :=
  { sox := .completed 0 true 500, engine := .yields [] 1,
    sendOk := true, sendNow := 100, now := 45, heartbeatOk := true,
    socketClosedObserved := false, reconnect := fun _ => .ok }

/-- The same iteration environment as `envHeartbeatFails` except that the
heartbeat write succeeds. -/
def envHeartbeatSucceeds : Env :=
  { sox := .completed 0 true 500, engine := .yields [] 1,
    sendOk := true, sendNow := 100, now := 40, heartbeatOk := true,
    socketClosedObserved := false, reconnect := fun _ => .ok }

/-- Environment where the engine hangs past both deadlines. -/
def envEngineHangs : Env :=
  { sox := .completed 0 true 20000, engine := .hangs,
    sendOk := true, sendNow := 100, now := 1, heartbeatOk := true,
    socketClosedObserved := false, reconnect := fun _ => .ok }

/-- Environment whose loop body raises an exception with the socket observed
closed, triggering the reconnect branch of the error handler. -/
def envErrorSocketClosed : Env :=
  { sox := .raised false, engine := .yields [] 1,
    sendOk := true, sendNow := 100, now := 1, heartbeatOk := true,
    socketClosedObserved := true, reconnect := fun _ => .ok }

theorem error_prefix_ne_empty (m : String) : ("Error: " ++ m) ≠ "" := by
  intro h
  have hd := congrArg String.data h
  rw [String.data_append] at hd
  simp at hd

theorem transcribe_events_cases (r : EngineRun) :
    (transcribe_of_run r).2 = [] ∨ (transcribe_of_run r).2 = [Event.enginePkill] ∨
    (transcribe_of_run r).2 = [Event.stderrLogged] := by
  cases r with
  | yields segs secs =>
    simp only [transcribe_of_run, runWhisperSubprocess, engineCompletionTime,
      innerExitOutcome, transcribe_audio_chunk]
    repeat' split <;> simp_all
  | hangs =>
    simp [transcribe_of_run, runWhisperSubprocess, engineCompletionTime,
      transcribe_audio_chunk]
  | raisesExc m =>
    simp [transcribe_of_run, runWhisperSubprocess, engineCompletionTime,
      innerExitOutcome, transcribe_audio_chunk, transcribe_subprocess_timeout,
      error_prefix_ne_empty m]
  | spawnFails =>
    simp [transcribe_of_run, runWhisperSubprocess, transcribe_audio_chunk]

theorem mem_transcribe_events {r : EngineRun} {e : Event}
    (h : e ∈ (transcribe_of_run r).2) :
    e = Event.enginePkill ∨ e = Event.stderrLogged := by
  rcases transcribe_events_cases r with hc | hc | hc <;> rw [hc] at h <;> simp_all

theorem mem_connectGo_events {f : Nat → ConnectOutcome} {e : Event} :
    ∀ {n i}, e ∈ (connectGo f i n).events →
      (∃ b, e = Event.connectTry b) ∨ e = Event.sleepMs (1000 * retry_delay) := by
  intro n
  induction n with
  | zero => intro i h; simp [connectGo] at h
  | succ n ih =>
    intro i h
    unfold connectGo at h
    cases hfi : f i <;> rw [hfi] at h <;> simp only [List.mem_cons, List.mem_singleton] at h
    · exact Or.inl ⟨true, by simpa using h⟩
    · rcases h with h | h | h
      · exact Or.inl ⟨false, h⟩
      · exact Or.inr h
      · exact ih h
    · exact Or.inl ⟨false, by simpa using h⟩

theorem connectGo_events_ne_nil (f : Nat → ConnectOutcome) (i n : Nat)
    (hn : 0 < n) : (connectGo f i n).events ≠ [] := by
  cases n with
  | zero => omega
  | succ n => unfold connectGo; cases hfi : f i <;> simp

theorem heartbeatStep_cases (lh : Int) (s : Bool) (now : Int) (ok : Bool) :
    (heartbeatStep lh s now ok).1 = [] ∨
    (heartbeatStep lh s now ok).1 = [Event.heartbeat true] ∨
    (heartbeatStep lh s now ok).1 = [Event.heartbeat false] := by
  unfold heartbeatStep
  split
  · split
    · exact Or.inr (Or.inl rfl)
    · exact Or.inr (Or.inr rfl)
  · exact Or.inl rfl

theorem mem_heartbeatStep {lh : Int} {s : Bool} {now : Int} {ok : Bool} {e : Event}
    (h : e ∈ (heartbeatStep lh s now ok).1) : ∃ b, e = Event.heartbeat b := by
  rcases heartbeatStep_cases lh s now ok with hc | hc | hc <;> rw [hc] at h
  · simp at h
  · exact ⟨true, by simpa using h⟩
  · exact ⟨false, by simpa using h⟩

theorem deliveryOf_send (seq : Nat) (sock so : Bool) (t : String) (sn : Int)
    (fin : Bool) :
    deliveryOf seq (send_transcription sock so t sn fin) =
    if sock = true then
      [Event.deliveryAttempt seq (transcriptionWireLine t sn fin) so]
    else [] := by
  unfold send_transcription
  split <;> rfl

theorem mem_deliveryOf {seq : Nat} {e : Event} {p : Bool × Option String}
    (h : e ∈ deliveryOf seq p) : ∃ l ok, e = Event.deliveryAttempt seq l ok := by
  rcases p with ⟨ok, _ | line⟩ <;> simp [deliveryOf] at h
  exact ⟨line, ok, h⟩

theorem mem_completedBody {seq : Nat} {sock so : Bool} {sn : Int} {eng : EngineRun}
    {rc : Int} {fc : Bool} {size : Nat} {e : Event}
    (h : e ∈ completedBody seq sock so sn eng rc fc size) :
    e = Event.engineInvoke seq ∨ e = Event.enginePkill ∨ e = Event.stderrLogged ∨
    ∃ l ok, e = Event.deliveryAttempt seq l ok := by
  unfold completedBody at h
  rw [deliveryOf_send] at h
  split at h
  · split at h
    · split at h
      · split at h
        · simp only [List.mem_append, List.mem_cons, List.not_mem_nil, or_false] at h
          rcases h with (h | h) | h
          · exact Or.inl h
          · rcases mem_transcribe_events h with h | h
            · exact Or.inr (Or.inl h)
            · exact Or.inr (Or.inr (Or.inl h))
          · exact Or.inr (Or.inr (Or.inr ⟨_, _, h⟩))
        · simp only [List.append_nil, List.mem_cons] at h
          rcases h with h | h
          · exact Or.inl h
          · rcases mem_transcribe_events h with h | h
            · exact Or.inr (Or.inl h)
            · exact Or.inr (Or.inr (Or.inl h))
      · simp only [List.mem_cons] at h
        rcases h with h | h
        · exact Or.inl h
        · rcases mem_transcribe_events h with h | h
          · exact Or.inr (Or.inl h)
          · exact Or.inr (Or.inr (Or.inl h))
    · simp at h
  · simp at h

theorem delivery_mem_completedBody {seq : Nat} {sock so : Bool} {sn : Int}
    {eng : EngineRun} {rc : Int} {fc : Bool} {size : Nat} {s : Nat} {l : String}
    {ok : Bool}
    (h : Event.deliveryAttempt s l ok ∈ completedBody seq sock so sn eng rc fc size) :
    rc = 0 ∧ fc = true ∧ isWorthTranscribing size = true ∧
    isMeaningfulText (transcribe_of_run eng).1 = true ∧ sock = true ∧
    s = seq ∧ ok = so ∧
    l = transcriptionWireLine (transcribe_of_run eng).1 sn true := by
  unfold completedBody at h
  rw [deliveryOf_send] at h
  split at h
  case isTrue hrc =>
    split at h
    case isTrue hsz =>
      split at h
      case isTrue hmt =>
        split at h
        case isTrue hsk =>
          simp only [List.mem_append, List.mem_cons, List.not_mem_nil, or_false] at h
          rcases h with (h | h) | h
          · simp at h
          · rcases mem_transcribe_events h with h | h <;> simp at h
          · injection h with h1 h2 h3
            exact ⟨hrc.1, hrc.2, hsz, hmt, hsk, h1, h3, h2⟩
        case isFalse =>
          simp only [List.append_nil, List.mem_cons] at h
          rcases h with h | h
          · simp at h
          · rcases mem_transcribe_events h with h | h <;> simp at h
      case isFalse =>
        simp only [List.mem_cons] at h
        rcases h with h | h
        · simp at h
        · rcases mem_transcribe_events h with h | h <;> simp at h
    case isFalse => simp at h
  case isFalse => simp at h

theorem engineInvoke_mem_completedBody {seq : Nat} {sock so : Bool} {sn : Int}
    {eng : EngineRun} {rc : Int} {fc : Bool} {size : Nat} {s : Nat}
    (h : Event.engineInvoke s ∈ completedBody seq sock so sn eng rc fc size) :
    rc = 0 ∧ fc = true ∧ isWorthTranscribing size = true ∧ s = seq := by
  unfold completedBody at h
  rw [deliveryOf_send] at h
  split at h
  case isTrue hrc =>
    split at h
    case isTrue hsz =>
      split at h
      · split at h
        · simp only [List.mem_append, List.mem_cons, List.not_mem_nil, or_false] at h
          rcases h with (h | h) | h
          · injection h with h1; exact ⟨hrc.1, hrc.2, hsz, h1⟩
          · rcases mem_transcribe_events h with h | h <;> simp at h
          · simp at h
        · simp only [List.append_nil, List.mem_cons] at h
          rcases h with h | h
          · injection h with h1; exact ⟨hrc.1, hrc.2, hsz, h1⟩
          · rcases mem_transcribe_events h with h | h <;> simp at h
      · simp only [List.mem_cons] at h
        rcases h with h | h
        · injection h with h1; exact ⟨hrc.1, hrc.2, hsz, h1⟩
        · rcases mem_transcribe_events h with h | h <;> simp at h
    case isFalse => simp at h
  case isFalse => simp at h

theorem loopIteration_completed {st : LoopState} {env : Env} {rc : Int}
    {fc : Bool} {size : Nat} (hsox : env.sox = SoxOutcome.completed rc fc size) :
    loopIteration st env =
    ⟨Event.soxRecord st.segmentCounter ::
       completedBody st.segmentCounter st.socketTruthy env.sendOk env.sendNow
         env.engine rc fc size ++
       (heartbeatStep st.lastHeartbeat st.socketTruthy env.now env.heartbeatOk).1 ++
       (if fc = true then [Event.unlink st.segmentCounter] else []) ++
       [.sleepMs inter_iteration_pause_ms],
     { st with segmentCounter := st.segmentCounter + 1,
               lastHeartbeat :=
                 (heartbeatStep st.lastHeartbeat st.socketTruthy env.now env.heartbeatOk).2 },
     true⟩ := by
  unfold loopIteration
  rw [hsox]

theorem loopIteration_timedOut {st : LoopState} {env : Env} {fc : Bool}
    (hsox : env.sox = SoxOutcome.timedOut fc) :
    loopIteration st env =
    ⟨Event.soxRecord st.segmentCounter ::
       (if fc = true then [Event.unlink st.segmentCounter] else []),
     { st with segmentCounter := st.segmentCounter + 1 }, true⟩ := by
  unfold loopIteration
  rw [hsox]

theorem loopIteration_raised {st : LoopState} {env : Env} {fc : Bool}
    (hsox : env.sox = SoxOutcome.raised fc) :
    loopIteration st env =
    if st.socketTruthy = false ∨ env.socketClosedObserved = true then
      if (connect_to_nodejs env.reconnect).result = ConnectResult.uncaught then
        ⟨Event.soxRecord st.segmentCounter ::
           (if fc = true then [Event.unlink st.segmentCounter] else []) ++
           (connect_to_nodejs env.reconnect).events,
         { st with segmentCounter := st.segmentCounter + 1, socketTruthy := true },
         false⟩
      else
        ⟨Event.soxRecord st.segmentCounter ::
           (if fc = true then [Event.unlink st.segmentCounter] else []) ++
           (connect_to_nodejs env.reconnect).events ++ [.sleepMs error_pause_ms],
         { st with segmentCounter := st.segmentCounter + 1, socketTruthy := true },
         true⟩
    else
      ⟨Event.soxRecord st.segmentCounter ::
         (if fc = true then [Event.unlink st.segmentCounter] else []) ++
         [.sleepMs error_pause_ms],
       { st with segmentCounter := st.segmentCounter + 1 }, true⟩ := by
  unfold loopIteration
  rw [hsox]

theorem mem_loopIteration_cases {st : LoopState} {env : Env} {e : Event}
    (h : e ∈ (loopIteration st env).events) :
    e = Event.soxRecord st.segmentCounter ∨
    (∃ rc fc size, env.sox = SoxOutcome.completed rc fc size ∧
       e ∈ completedBody st.segmentCounter st.socketTruthy env.sendOk env.sendNow
             env.engine rc fc size) ∨
    (∃ b, e = Event.heartbeat b) ∨
    e = Event.unlink st.segmentCounter ∨
    (∃ ms, e = Event.sleepMs ms) ∨
    (∃ b, e = Event.connectTry b) := by
  rcases hsox : env.sox with ⟨rc, fc, size⟩ | fc | fc
  · rw [loopIteration_completed hsox] at h
    simp only [List.mem_append, List.mem_cons, List.not_mem_nil, or_false] at h
    rcases h with (((h | h) | h) | h) | h
    · exact Or.inl h
    · exact Or.inr (Or.inl ⟨rc, fc, size, rfl, h⟩)
    · exact Or.inr (Or.inr (Or.inl (mem_heartbeatStep h)))
    · split at h
      · simp only [List.mem_singleton] at h
        exact Or.inr (Or.inr (Or.inr (Or.inl h)))
      · simp at h
    · exact Or.inr (Or.inr (Or.inr (Or.inr (Or.inl ⟨_, h⟩))))
  · rw [loopIteration_timedOut hsox] at h
    simp only [List.mem_cons] at h
    rcases h with h | h
    · exact Or.inl h
    · split at h
      · simp only [List.mem_singleton] at h
        exact Or.inr (Or.inr (Or.inr (Or.inl h)))
      · simp at h
  · rw [loopIteration_raised hsox] at h
    split at h
    · split at h
      · simp only [List.mem_append, List.mem_cons, List.not_mem_nil, or_false] at h
        rcases h with (h | h) | h
        · exact Or.inl h
        · split at h
          · simp only [List.mem_singleton] at h
            exact Or.inr (Or.inr (Or.inr (Or.inl h)))
          · simp at h
        · rcases mem_connectGo_events h with ⟨b, hb⟩ | hb
          · exact Or.inr (Or.inr (Or.inr (Or.inr (Or.inr ⟨b, hb⟩))))
          · exact Or.inr (Or.inr (Or.inr (Or.inr (Or.inl ⟨_, hb⟩))))
      · simp only [List.mem_append, List.mem_cons, List.not_mem_nil, or_false] at h
        rcases h with ((h | h) | h) | h
        · exact Or.inl h
        · split at h
          · simp only [List.mem_singleton] at h
            exact Or.inr (Or.inr (Or.inr (Or.inl h)))
          · simp at h
        · rcases mem_connectGo_events h with ⟨b, hb⟩ | hb
          · exact Or.inr (Or.inr (Or.inr (Or.inr (Or.inr ⟨b, hb⟩))))
          · exact Or.inr (Or.inr (Or.inr (Or.inr (Or.inl ⟨_, hb⟩))))
        · exact Or.inr (Or.inr (Or.inr (Or.inr (Or.inl ⟨_, h⟩))))
    · simp only [List.mem_append, List.mem_cons, List.not_mem_nil, or_false] at h
      rcases h with (h | h) | h
      · exact Or.inl h
      · split at h
        · simp only [List.mem_singleton] at h
          exact Or.inr (Or.inr (Or.inr (Or.inl h)))
        · simp at h
      · exact Or.inr (Or.inr (Or.inr (Or.inr (Or.inl ⟨_, h⟩))))

theorem delivery_mem_loopIteration {st : LoopState} {env : Env} {s : Nat}
    {l : String} {ok : Bool}
    (h : Event.deliveryAttempt s l ok ∈ (loopIteration st env).events) :
    ∃ size, env.sox = SoxOutcome.completed 0 true size ∧
      isWorthTranscribing size = true ∧
      isMeaningfulText (transcribe_of_run env.engine).1 = true ∧
      st.socketTruthy = true ∧ s = st.segmentCounter ∧ ok = env.sendOk ∧
      l = transcriptionWireLine (transcribe_of_run env.engine).1 env.sendNow true := by
  rcases mem_loopIteration_cases h with h | ⟨rc, fc, size, hsox, h⟩ | ⟨b, h⟩ | h | ⟨ms, h⟩ | ⟨b, h⟩
  · simp at h
  · obtain ⟨hrc, hfc, hw, hm, hsk, hs, hok, hl⟩ := delivery_mem_completedBody h
    subst hrc hfc
    exact ⟨size, hsox, hw, hm, hsk, hs, hok, hl⟩
  · simp at h
  · simp at h
  · simp at h
  · simp at h

theorem engineInvoke_mem_loopIteration {st : LoopState} {env : Env} {s : Nat}
    (h : Event.engineInvoke s ∈ (loopIteration st env).events) :
    ∃ size, env.sox = SoxOutcome.completed 0 true size ∧
      isWorthTranscribing size = true ∧ s = st.segmentCounter := by
  rcases mem_loopIteration_cases h with h | ⟨rc, fc, size, hsox, h⟩ | ⟨b, h⟩ | h | ⟨ms, h⟩ | ⟨b, h⟩
  · simp at h
  · obtain ⟨hrc, hfc, hw, hs⟩ := engineInvoke_mem_completedBody h
    subst hrc hfc
    exact ⟨size, hsox, hw, hs⟩
  · simp at h
  · simp at h
  · simp at h
  · simp at h

/-- C2: a captured segment of byte size at most 8000 never reaches the
transcription engine and produces no delivery attempt, and the engine is
invoked only for segments strictly larger than 8000 bytes. -/
theorem size_gate_blocks_engine (st : LoopState) (env : Env) :
    (∀ rc fc size, env.sox = SoxOutcome.completed rc fc size →
      size ≤ size_threshold →
      (∀ s, Event.engineInvoke s ∉ (loopIteration st env).events) ∧
      (∀ s l ok, Event.deliveryAttempt s l ok ∉ (loopIteration st env).events)) ∧
    (∀ s, Event.engineInvoke s ∈ (loopIteration st env).events →
      ∃ rc fc size, env.sox = SoxOutcome.completed rc fc size ∧
        size_threshold < size) := by
  constructor
  · intro rc fc size hsox hsize
    constructor
    · intro s h
      obtain ⟨size2, hsox2, hw, _⟩ := engineInvoke_mem_loopIteration h
      rw [hsox] at hsox2
      injection hsox2 with h1 h2 h3
      subst h3
      simp only [isWorthTranscribing, decide_eq_true_eq] at hw
      omega
    · intro s l ok h
      obtain ⟨size2, hsox2, hw, _⟩ := delivery_mem_loopIteration h
      rw [hsox] at hsox2
      injection hsox2 with h1 h2 h3
      subst h3
      simp only [isWorthTranscribing, decide_eq_true_eq] at hw
      omega
  · intro s h
    obtain ⟨size, hsox, hw, _⟩ := engineInvoke_mem_loopIteration h
    refine ⟨0, true, size, hsox, ?_⟩
    simpa [isWorthTranscribing] using hw

/-- Witness for C2: a 500-byte capture is below the gate and the engine is
not invoked for it. -/
theorem size_gate_blocks_engine_witness :
    500 ≤ size_threshold ∧
    Event.engineInvoke 0 ∉ (loopIteration initialState envSmallSegment).events :=
  ⟨by decide,
   ((size_gate_blocks_engine initialState envSmallSegment).1 0 true 500 rfl
      (by decide)).1 0⟩

/-- C3: when the transcription result strips to at most 2 characters
(including the empty string) no transcription message is sent, and a
delivery attempt happens only when the stripped length strictly exceeds 2. -/
theorem short_text_blocks_send (st : LoopState) (env : Env) :
    ((pyStrip (transcribe_of_run env.engine).1).length ≤ meaningful_len →
      ∀ s l ok, Event.deliveryAttempt s l ok ∉ (loopIteration st env).events) ∧
    (∀ s l ok, Event.deliveryAttempt s l ok ∈ (loopIteration st env).events →
      meaningful_len < (pyStrip (transcribe_of_run env.engine).1).length) := by
  have key : ∀ s l ok, Event.deliveryAttempt s l ok ∈ (loopIteration st env).events →
      meaningful_len < (pyStrip (transcribe_of_run env.engine).1).length := by
    intro s l ok h
    obtain ⟨size, hsox, hw, hm, _⟩ := delivery_mem_loopIteration h
    simp only [isMeaningfulText, Bool.and_eq_true, decide_eq_true_eq] at hm
    exact hm.2
  exact ⟨fun hle s l ok h => absurd (key s l ok h) (by omega), key⟩

/-- Witness for C3: an engine result stripping to `"a"` (length 1) yields no
delivery attempt. -/
theorem short_text_blocks_send_witness :
    (pyStrip (transcribe_of_run envShortText.engine).1).length ≤ meaningful_len ∧
    Event.deliveryAttempt 0 (transcriptionWireLine "a" 100 true) true ∉
      (loopIteration initialState envShortText).events :=
  ⟨by decide,
   (short_text_blocks_send initialState envShortText).1 (by decide) 0
     (transcriptionWireLine "a" 100 true) true⟩

/-- C7: every line handed to `socket.send` for a transcription is the JSON
record `\x7b"type": "transcription", "text": ..., "timestamp": ...,
"isFinal": ...\x7d` terminated by a single newline, and its `isFinal` field
is always `true` (the only call site passes `is_final=True`). -/
theorem wire_format_is_final (st : LoopState) (env : Env) :
    ∀ s l ok, Event.deliveryAttempt s l ok ∈ (loopIteration st env).events →
      l = transcriptionWireBody (transcribe_of_run env.engine).1 env.sendNow true
            ++ "\n" := by
  intro s l ok h
  obtain ⟨size, _, _, _, _, _, _, hl⟩ := delivery_mem_loopIteration h
  exact hl

/-- Witness for C7 at a concrete delivered segment. -/
theorem wire_format_is_final_witness :
    transcriptionWireLine "ok then" 200 true =
      transcriptionWireBody (transcribe_of_run envSendSucceeds.engine).1
        envSendSucceeds.sendNow true ++ "\n" :=
  wire_format_is_final ⟨1, 0, true⟩ envSendSucceeds 1
    (transcriptionWireLine "ok then" 200 true) true (by decide)

theorem unlink_mem_loopIteration (st : LoopState) (env : Env) :
    Event.unlink st.segmentCounter ∈ (loopIteration st env).events ↔
      artifactCreated env = true := by
  rcases hsox : env.sox with ⟨rc, fc, size⟩ | fc | fc
  · rw [loopIteration_completed hsox]
    simp only [artifactCreated, hsox]
    constructor
    · intro h
      simp only [List.mem_append, List.mem_cons, List.not_mem_nil, or_false] at h
      rcases h with (((h | h) | h) | h) | h
      · simp at h
      · rcases mem_completedBody h with h | h | h | ⟨l, ok, h⟩ <;> simp at h
      · rcases mem_heartbeatStep h with ⟨b, hb⟩; simp at hb
      · split at h
        case isTrue hfc => exact hfc
        case isFalse => simp at h
      · simp at h
    · intro hfc
      simp [hfc]
  · rw [loopIteration_timedOut hsox]
    simp only [artifactCreated, hsox]
    cases fc <;> simp
  · rw [loopIteration_raised hsox]
    simp only [artifactCreated, hsox]
    constructor
    · intro h
      split at h
      · split at h
        · simp only [List.mem_append, List.mem_cons, List.not_mem_nil, or_false] at h
          rcases h with (h | h) | h
          · simp at h
          · split at h
            case isTrue hfc => exact hfc
            case isFalse => simp at h
          · rcases mem_connectGo_events h with ⟨b, hb⟩ | hb <;> simp at hb
        · simp only [List.mem_append, List.mem_cons, List.not_mem_nil, or_false] at h
          rcases h with ((h | h) | h) | h
          · simp at h
          · split at h
            case isTrue hfc => exact hfc
            case isFalse => simp at h
          · rcases mem_connectGo_events h with ⟨b, hb⟩ | hb <;> simp at hb
          · simp at h
      · simp only [List.mem_append, List.mem_cons, List.not_mem_nil, or_false] at h
        rcases h with (h | h) | h
        · simp at h
        · split at h
          case isTrue hfc => exact hfc
          case isFalse => simp at h
        · simp at h
    · intro hfc
      split
      · split <;> simp [hfc]
      · simp [hfc]

/-- C6: the iteration's audio artifact (when sox left one on disk) is removed
by that same iteration on every code path — success, size-gate rejection,
transcription timeout or failure, failed delivery, sox timeout, and the
generic error handler alike — no other iteration's file is touched, and the
`finally` teardown of `start_streaming` removes the temporary directory. -/
theorem artifact_cleanup_every_path (st : LoopState) (env : Env) (b : Bool) :
    (Event.unlink st.segmentCounter ∈ (loopIteration st env).events ↔
      artifactCreated env = true) ∧
    (∀ s, Event.unlink s ∈ (loopIteration st env).events →
      s = st.segmentCounter) ∧
    TeardownEvent.rmtreeTempDir ∈ start_streaming_teardown b true := by
  refine ⟨unlink_mem_loopIteration st env, ?_, ?_⟩
  · intro s h
    rcases mem_loopIteration_cases h with h | ⟨rc, fc, size, hsox, h⟩ | ⟨c, h⟩ | h |
      ⟨ms, h⟩ | ⟨c, h⟩
    · simp at h
    · rcases mem_completedBody h with h | h | h | ⟨l, ok, h⟩ <;> simp at h
    · simp at h
    · injection h
    · simp at h
    · simp at h
  · unfold start_streaming_teardown
    cases b <;> simp

/-- Witness for C6: the send-failure iteration removes its artifact, and the
teardown removes the temporary directory. -/
theorem artifact_cleanup_every_path_witness :
    artifactCreated envSendFails = true ∧
    Event.unlink 0 ∈ (loopIteration initialState envSendFails).events ∧
    TeardownEvent.rmtreeTempDir ∈ start_streaming_teardown true true :=
  ⟨rfl,
   (artifact_cleanup_every_path initialState envSendFails true).1.mpr rfl,
   (artifact_cleanup_every_path initialState envSendFails true).2.2⟩

theorem connectTry_mem_connectGo (f : Nat → ConnectOutcome) (i r : Nat) :
    ∃ b, Event.connectTry b ∈ (connectGo f i (r + 1)).events := by
  unfold connectGo
  cases hf : f i
  · exact ⟨true, by simp⟩
  · exact ⟨false, by simp⟩
  · exact ⟨false, by simp⟩

theorem connectTry_mem_loopIteration {st : LoopState} {env : Env} {b : Bool}
    (h : Event.connectTry b ∈ (loopIteration st env).events) :
    (∃ fc, env.sox = SoxOutcome.raised fc) ∧
    (st.socketTruthy = false ∨ env.socketClosedObserved = true) := by
  rcases hsox : env.sox with ⟨rc, fc, size⟩ | fc | fc
  · rw [loopIteration_completed hsox] at h
    simp only [List.mem_append, List.mem_cons, List.not_mem_nil, or_false] at h
    rcases h with (((h | h) | h) | h) | h
    · simp at h
    · rcases mem_completedBody h with h | h | h | ⟨l, ok, h⟩ <;> simp at h
    · rcases mem_heartbeatStep h with ⟨c, hc⟩; simp at hc
    · split at h
      · simp at h
      · simp at h
    · simp at h
  · rw [loopIteration_timedOut hsox] at h
    simp only [List.mem_cons] at h
    rcases h with h | h
    · simp at h
    · split at h
      · simp at h
      · simp at h
  · rw [loopIteration_raised hsox] at h
    split at h
    case isTrue hcond =>
      exact ⟨⟨fc, rfl⟩, hcond⟩
    case isFalse =>
      exfalso
      simp only [List.mem_append, List.mem_cons, List.not_mem_nil, or_false] at h
      rcases h with (h | h) | h
      · simp at h
      · split at h
        · simp at h
        · simp at h
      · simp at h

/-- C1 (amended): a reconnect attempt (`connect_to_nodejs`) occurs in an
iteration exactly when an exception escapes the loop body and the socket is
falsy or observed closed (`fileno() == -1`); a failed content send alone —
which `send_transcription` swallows, returning the discarded value `False` —
never produces one. -/
theorem reconnect_only_on_exception_path (st : LoopState) (env : Env) :
    (∃ b, Event.connectTry b ∈ (loopIteration st env).events) ↔
      ((∃ fc, env.sox = SoxOutcome.raised fc) ∧
        (st.socketTruthy = false ∨ env.socketClosedObserved = true)) := by
  constructor
  · rintro ⟨b, h⟩
    exact connectTry_mem_loopIteration h
  · rintro ⟨⟨fc, hsox⟩, hcond⟩
    rw [loopIteration_raised hsox, if_pos hcond]
    have h5 : max_retries = 4 + 1 := rfl
    obtain ⟨b, hb⟩ := connectTry_mem_connectGo env.reconnect 0 4
    have hb2 : Event.connectTry b ∈ (connect_to_nodejs env.reconnect).events := by
      unfold connect_to_nodejs
      rw [h5]
      exact hb
    split <;> exact ⟨b, by simp [hb2]⟩

/-- C1 (counterexample): a run of two good segments in which the first
delivery's `socket.send` raises: the failed attempt for segment 0 is followed
by segment 1's completed delivery attempt with no `connect` call anywhere in
the trace. -/
theorem send_failure_without_reconnect :
    Event.deliveryAttempt 0 (transcriptionWireLine "hello world" 100 true) false ∈
      (record_and_process_audio initialState [envSendFails, envSendSucceeds]).1 ∧
    Event.deliveryAttempt 1 (transcriptionWireLine "ok then" 200 true) true ∈
      (record_and_process_audio initialState [envSendFails, envSendSucceeds]).1 ∧
    ((record_and_process_audio initialState [envSendFails, envSendSucceeds]).1.all
      fun e => !isConnectTry e) = true :=
  ⟨by decide, by decide, by decide⟩

/-- C4: the transcription call runs under the inner 5-second `signal.alarm`
deadline wrapped by the outer 8-second `subprocess.run` timeout; an outer
timeout pkills the engine and yields `""`, an inner-deadline firing exits the
script non-zero and yields `""`, an engine exception exits non-zero with
diagnostic stderr and yields `""`, and in every such case the caller makes no
delivery attempt and the capture loop stays alive and advances to the next
iteration. -/
theorem transcribe_deadline_contract (st : LoopState) (env : Env) :
    transcribe_alarm_seconds = 5 ∧ transcribe_subprocess_timeout = 8 ∧
    transcribe_of_run EngineRun.hangs = ("", [Event.enginePkill]) ∧
    (∀ segs secs, transcribe_alarm_seconds ≤ secs →
      transcribe_of_run (EngineRun.yields segs secs) = ("", [])) ∧
    (∀ m, transcribe_of_run (EngineRun.raisesExc m) = ("", [Event.stderrLogged])) ∧
    (∀ rc fc size, env.sox = SoxOutcome.completed rc fc size →
      (transcribe_of_run env.engine).1 = "" →
      (∀ s l ok, Event.deliveryAttempt s l ok ∉ (loopIteration st env).events) ∧
      (loopIteration st env).alive = true ∧
      (loopIteration st env).state.segmentCounter = st.segmentCounter + 1) := by
  refine ⟨rfl, rfl, rfl, ?_, ?_, ?_⟩
  · intro segs secs h
    have h1 : ¬ (transcribe_subprocess_timeout < min secs transcribe_alarm_seconds) := by
      have := Nat.min_le_right secs transcribe_alarm_seconds
      simp only [transcribe_subprocess_timeout, transcribe_alarm_seconds] at *
      omega
    simp only [transcribe_of_run, runWhisperSubprocess, engineCompletionTime,
      innerExitOutcome, transcribe_audio_chunk, h, h1, if_true, if_false]
    norm_num
  · intro m
    simp [transcribe_of_run, runWhisperSubprocess, engineCompletionTime,
      innerExitOutcome, transcribe_audio_chunk, transcribe_subprocess_timeout,
      error_prefix_ne_empty m]
  · intro rc fc size hsox hempty
    refine ⟨?_, ?_, ?_⟩
    · intro s l ok h
      obtain ⟨size2, _, _, hm, _⟩ := delivery_mem_loopIteration h
      rw [hempty] at hm
      exact absurd hm (by decide)
    · rw [loopIteration_completed hsox]
    · rw [loopIteration_completed hsox]

/-- Witness for C4: a hung engine is force-terminated, produces the empty
result, and the loop neither delivers nor dies. -/
theorem transcribe_deadline_contract_witness :
    (transcribe_of_run envEngineHangs.engine).1 = "" ∧
    Event.deliveryAttempt 0 (transcriptionWireLine "" 100 true) true ∉
      (loopIteration initialState envEngineHangs).events ∧
    (loopIteration initialState envEngineHangs).alive = true :=
  ⟨rfl,
   ((transcribe_deadline_contract initialState envEngineHangs).2.2.2.2.2 0 true
      20000 rfl rfl).1 0 (transcriptionWireLine "" 100 true) true,
   ((transcribe_deadline_contract initialState envEngineHangs).2.2.2.2.2 0 true
      20000 rfl rfl).2.1⟩

theorem connectGo_no_raise (f : Nat → ConnectOutcome)
    (hf : ∀ i, f i ≠ ConnectOutcome.raised) :
    ∀ n i, (connectGo f i n).result ≠ ConnectResult.uncaught ∧
      ((connectGo f i n).events.filter isConnectTry).length ≤ n := by
  intro n
  induction n with
  | zero => intro i; simp [connectGo]
  | succ n ih =>
    intro i
    cases hfi : f i
    case ok =>
      have heq : connectGo f i (n + 1) = ⟨.connected, [.connectTry true]⟩ := by
        unfold connectGo; rw [hfi]
      rw [heq]
      simp [isConnectTry]
    case refused =>
      have heq : connectGo f i (n + 1) =
          ⟨(connectGo f (i + 1) n).result,
           .connectTry false :: .sleepMs (1000 * retry_delay) ::
             (connectGo f (i + 1) n).events⟩ := by
        conv_lhs => rw [connectGo]
        rw [hfi]
      rw [heq]
      refine ⟨(ih (i + 1)).1, ?_⟩
      have hlen := (ih (i + 1)).2
      simp only [List.filter_cons, isConnectTry, List.length_cons]
      simp only [if_true, if_false]
      simp [List.length_cons]
      omega
    case raised => exact absurd hfi (hf i)

/-- C5 (amended): `connect_to_nodejs` makes at most `max_retries = 5`
attempts with a fixed `retry_delay = 2` second sleep after each
`ConnectionRefusedError`, and when every failure is a refused connection it
returns a value (never an uncaught fault); exhausting the budget makes `main`
return before the capture loop ever runs.  (Failures other than
`ConnectionRefusedError` are not caught — see the counterexample.) -/
theorem connect_retry_budget :
    max_retries = 5 ∧ retry_delay = 2 ∧
    (∀ f : Nat → ConnectOutcome, (∀ i, f i ≠ ConnectOutcome.raised) →
      (connect_to_nodejs f).result ≠ ConnectResult.uncaught ∧
      ((connect_to_nodejs f).events.filter isConnectTry).length ≤ max_retries) ∧
    (connect_to_nodejs fun _ => ConnectOutcome.refused).result =
      ConnectResult.exhausted ∧
    (connect_to_nodejs fun _ => ConnectOutcome.refused).events =
      [.connectTry false, .sleepMs (1000 * retry_delay), .connectTry false,
       .sleepMs (1000 * retry_delay), .connectTry false, .sleepMs (1000 * retry_delay),
       .connectTry false, .sleepMs (1000 * retry_delay), .connectTry false,
       .sleepMs (1000 * retry_delay)] ∧
    (∀ t0 f envs, (connect_to_nodejs f).result = ConnectResult.exhausted →
      (mainRun t0 f envs).1 = MainResult.abortedNoConnect ∧
      ∀ s, Event.soxRecord s ∉ (mainRun t0 f envs).2) := by
  refine ⟨rfl, rfl, ?_, rfl, rfl, ?_⟩
  · intro f hf
    exact connectGo_no_raise f hf max_retries 0
  · intro t0 f envs hex
    have hev : (mainRun t0 f envs).2 = (connect_to_nodejs f).events := by
      unfold mainRun
      rw [hex]
    constructor
    · unfold mainRun
      rw [hex]
    · intro s h
      rw [hev] at h
      rcases mem_connectGo_events h with ⟨b, hb⟩ | hb <;> simp at hb

/-- Witness for C5 at the all-refused outcome function. -/
theorem connect_retry_budget_witness :
    (connect_to_nodejs fun _ => ConnectOutcome.refused).result ≠
      ConnectResult.uncaught ∧
    ((connect_to_nodejs fun _ => ConnectOutcome.refused).events.filter
      isConnectTry).length ≤ max_retries ∧
    (mainRun 0 (fun _ => ConnectOutcome.refused) []).1 =
      MainResult.abortedNoConnect :=
  ⟨(connect_retry_budget.2.2.1 (fun _ => ConnectOutcome.refused)
      (fun _ => (by decide : ConnectOutcome.refused ≠ ConnectOutcome.raised))).1,
   (connect_retry_budget.2.2.1 (fun _ => ConnectOutcome.refused)
      (fun _ => (by decide : ConnectOutcome.refused ≠ ConnectOutcome.raised))).2,
   (connect_retry_budget.2.2.2.2.2 0 (fun _ => ConnectOutcome.refused) []
      connect_retry_budget.2.2.2.1).1⟩

/-- C5 (counterexample): a first-attempt connection failure that is not a
`ConnectionRefusedError` (for example `socket.gaierror`) propagates out of
`connect_to_nodejs` uncaught, so `main` dies on a raised fault instead of
receiving a returned error value. -/
theorem connect_unhandled_exception :
    (connect_to_nodejs fun _ => ConnectOutcome.raised).result =
      ConnectResult.uncaught ∧
    (mainRun 0 (fun _ => ConnectOutcome.raised) []).1 = MainResult.crashed :=
  ⟨rfl, rfl⟩

theorem filterMap_none {α β : Type} (f : α → Option β) :
    ∀ l : List α, (∀ e ∈ l, f e = none) → l.filterMap f = [] := by
  intro l h
  induction l with
  | nil => rfl
  | cons e t ih =>
    rw [List.filterMap_cons, h e (by simp)]
    exact ih fun x hx => h x (by simp [hx])

theorem captureSeqF_none_completedBody {seq : Nat} {sock so : Bool} {sn : Int}
    {eng : EngineRun} {rc : Int} {fc : Bool} {size : Nat} :
    ∀ e ∈ completedBody seq sock so sn eng rc fc size, captureSeqF e = none := by
  intro e he
  rcases mem_completedBody he with h | h | h | ⟨l, ok, h⟩ <;> subst h <;> rfl

theorem captureSeqF_none_heartbeatStep {lh : Int} {sk : Bool} {now : Int} {ok : Bool} :
    ∀ e ∈ (heartbeatStep lh sk now ok).1, captureSeqF e = none := by
  intro e he
  obtain ⟨b, hb⟩ := mem_heartbeatStep he
  subst hb
  rfl

theorem captureSeqF_none_connect {f : Nat → ConnectOutcome} {i n : Nat} :
    ∀ e ∈ (connectGo f i n).events, captureSeqF e = none := by
  intro e he
  rcases mem_connectGo_events he with ⟨b, hb⟩ | hb <;> subst hb <;> rfl

theorem captureSeqF_none_connect_to_nodejs {f : Nat → ConnectOutcome} :
    ∀ e ∈ (connect_to_nodejs f).events, captureSeqF e = none :=
  fun e he => captureSeqF_none_connect e he

theorem captureSeqs_loopIteration (st : LoopState) (env : Env) :
    captureSeqs (loopIteration st env).events = [st.segmentCounter] := by
  rcases hsox : env.sox with ⟨rc, fc, size⟩ | fc | fc
  · rw [loopIteration_completed hsox]
    simp only [captureSeqs, List.filterMap_append, List.filterMap_cons,
      filterMap_none _ _ captureSeqF_none_completedBody,
      filterMap_none _ _ captureSeqF_none_heartbeatStep]
    cases fc <;> simp [captureSeqF]
  · rw [loopIteration_timedOut hsox]
    cases fc <;> simp [captureSeqs, captureSeqF]
  · rw [loopIteration_raised hsox]
    split
    · split <;>
      · simp only [captureSeqs, List.filterMap_append, List.filterMap_cons,
          filterMap_none _ _ captureSeqF_none_connect_to_nodejs]
        cases fc <;> simp [captureSeqF]
    · simp only [captureSeqs, List.filterMap_append, List.filterMap_cons]
      cases fc <;> simp [captureSeqF]

theorem deliverySeqF_none_transcribe {r : EngineRun} :
    ∀ e ∈ (transcribe_of_run r).2, deliverySeqF e = none := by
  intro e he
  rcases mem_transcribe_events he with h | h <;> subst h <;> rfl

theorem deliverySeqs_completedBody (seq : Nat) (sock so : Bool) (sn : Int)
    (eng : EngineRun) (rc : Int) (fc : Bool) (size : Nat) :
    List.filterMap deliverySeqF (completedBody seq sock so sn eng rc fc size) = [] ∨
    List.filterMap deliverySeqF (completedBody seq sock so sn eng rc fc size) = [seq] := by
  unfold completedBody
  rw [deliveryOf_send]
  split
  · split
    · split
      · split
        · right
          simp only [List.filterMap_append, List.filterMap_cons,
            filterMap_none _ _ deliverySeqF_none_transcribe]
          simp [deliverySeqF]
        · left
          simp only [List.append_nil, List.filterMap_cons,
            filterMap_none _ _ deliverySeqF_none_transcribe]
          rfl
      · left
        simp only [List.filterMap_cons,
          filterMap_none _ _ deliverySeqF_none_transcribe]
        rfl
    · left; rfl
  · left; rfl

theorem deliverySeqF_none_heartbeatStep {lh : Int} {sk : Bool} {now : Int} {ok : Bool} :
    ∀ e ∈ (heartbeatStep lh sk now ok).1, deliverySeqF e = none := by
  intro e he
  obtain ⟨b, hb⟩ := mem_heartbeatStep he
  subst hb
  rfl

theorem deliverySeqF_none_connect {f : Nat → ConnectOutcome} {i n : Nat} :
    ∀ e ∈ (connectGo f i n).events, deliverySeqF e = none := by
  intro e he
  rcases mem_connectGo_events he with ⟨b, hb⟩ | hb <;> subst hb <;> rfl

theorem deliverySeqF_none_connect_to_nodejs {f : Nat → ConnectOutcome} :
    ∀ e ∈ (connect_to_nodejs f).events, deliverySeqF e = none :=
  fun e he => deliverySeqF_none_connect e he

theorem deliverySeqs_loopIteration (st : LoopState) (env : Env) :
    deliverySeqs (loopIteration st env).events = [] ∨
    deliverySeqs (loopIteration st env).events = [st.segmentCounter] := by
  rcases hsox : env.sox with ⟨rc, fc, size⟩ | fc | fc
  · rw [loopIteration_completed hsox]
    have hmain := deliverySeqs_completedBody st.segmentCounter st.socketTruthy
      env.sendOk env.sendNow env.engine rc fc size
    rcases hmain with hm | hm <;>
      [left; right] <;>
      · simp only [deliverySeqs, List.filterMap_append, List.filterMap_cons, hm,
          filterMap_none _ _ deliverySeqF_none_heartbeatStep]
        cases fc <;> simp [deliverySeqF]
  · left
    rw [loopIteration_timedOut hsox]
    cases fc <;> simp [deliverySeqs, deliverySeqF]
  · left
    rw [loopIteration_raised hsox]
    split
    · split <;>
      · simp only [deliverySeqs, List.filterMap_append, List.filterMap_cons,
          filterMap_none _ _ deliverySeqF_none_connect_to_nodejs]
        cases fc <;> simp [deliverySeqF]
    · simp only [deliverySeqs, List.filterMap_append, List.filterMap_cons]
      cases fc <;> simp [deliverySeqF]

theorem mem_allSeqs_loopIteration {st : LoopState} {env : Env} {s : Nat}
    (h : s ∈ allSeqs (loopIteration st env).events) : s = st.segmentCounter := by
  simp only [allSeqs, List.mem_filterMap] at h
  obtain ⟨e, he, hs⟩ := h
  rcases mem_loopIteration_cases he with h1 | ⟨rc, fc, size, hsox, h1⟩ | ⟨b, h1⟩ |
    h1 | ⟨ms, h1⟩ | ⟨b, h1⟩
  · subst h1
    simp only [eventSeq, Option.some.injEq] at hs
    exact hs.symm
  · rcases mem_completedBody h1 with h2 | h2 | h2 | ⟨l, ok, h2⟩
    · subst h2
      simp only [eventSeq, Option.some.injEq] at hs
      exact hs.symm
    · subst h2; simp [eventSeq] at hs
    · subst h2; simp [eventSeq] at hs
    · subst h2
      simp only [eventSeq, Option.some.injEq] at hs
      exact hs.symm
  · subst h1; simp [eventSeq] at hs
  · subst h1
    simp only [eventSeq, Option.some.injEq] at hs
    exact hs.symm
  · subst h1; simp [eventSeq] at hs
  · subst h1; simp [eventSeq] at hs

theorem loopIteration_counter (st : LoopState) (env : Env) :
    (loopIteration st env).state.segmentCounter = st.segmentCounter + 1 := by
  rcases hsox : env.sox with ⟨rc, fc, size⟩ | fc | fc
  · rw [loopIteration_completed hsox]
  · rw [loopIteration_timedOut hsox]
  · rw [loopIteration_raised hsox]
    split
    · split <;> rfl
    · rfl

theorem mem_allSeqs_run : ∀ (envs : List Env) (st : LoopState) (s : Nat),
    s ∈ allSeqs (record_and_process_audio st envs).1 → st.segmentCounter ≤ s := by
  intro envs
  induction envs with
  | nil => intro st s h; simp [record_and_process_audio, allSeqs] at h
  | cons e es ih =>
    intro st s h
    unfold record_and_process_audio at h
    split at h
    · simp only [allSeqs, List.filterMap_append, List.mem_append] at h
      rcases h with h | h
    
      · exact le_of_eq (mem_allSeqs_loopIteration h).symm
      · have h2 := ih (loopIteration st e).state s h
        rw [loopIteration_counter] at h2
        omega
    · exact le_of_eq (mem_allSeqs_loopIteration h).symm

theorem mem_captureSeqs_allSeqs {tr : List Event} {s : Nat}
    (h : s ∈ captureSeqs tr) : s ∈ allSeqs tr := by
  simp only [captureSeqs, List.mem_filterMap] at h
  obtain ⟨e, he, hs⟩ := h
  cases e with
  | soxRecord a =>
    simp only [captureSeqF, Option.some.injEq] at hs
    subst hs
    exact List.mem_filterMap.mpr ⟨Event.soxRecord a, he, rfl⟩
  | engineInvoke a => simp [captureSeqF] at hs
  | enginePkill => simp [captureSeqF] at hs
  | stderrLogged => simp [captureSeqF] at hs
  | deliveryAttempt a l ok => simp [captureSeqF] at hs
  | heartbeat b => simp [captureSeqF] at hs
  | connectTry b => simp [captureSeqF] at hs
  | sleepMs ms => simp [captureSeqF] at hs
  | unlink a => simp [captureSeqF] at hs

theorem mem_deliverySeqs_allSeqs {tr : List Event} {s : Nat}
    (h : s ∈ deliverySeqs tr) : s ∈ allSeqs tr := by
  simp only [deliverySeqs, List.mem_filterMap] at h
  obtain ⟨e, he, hs⟩ := h
  cases e with
  | deliveryAttempt a l ok =>
    simp only [deliverySeqF, Option.some.injEq] at hs
    subst hs
    exact List.mem_filterMap.mpr ⟨Event.deliveryAttempt a l ok, he, rfl⟩
  | soxRecord a => simp [deliverySeqF] at hs
  | engineInvoke a => simp [deliverySeqF] at hs
  | enginePkill => simp [deliverySeqF] at hs
  | stderrLogged => simp [deliverySeqF] at hs
  | heartbeat b => simp [deliverySeqF] at hs
  | connectTry b => simp [deliverySeqF] at hs
  | sleepMs ms => simp [deliverySeqF] at hs
  | unlink a => simp [deliverySeqF] at hs

theorem pairwise_le_of_eq {l : List Nat} {c : Nat} (h : ∀ x ∈ l, x = c) :
    l.Pairwise (· ≤ ·) := by
  induction l with
  | nil => exact List.Pairwise.nil
  | cons a t ih =>
    refine List.Pairwise.cons ?_ (ih fun x hx => h x (by simp [hx]))
    intro b hb
    rw [h a (by simp), h b (by simp [hb])]

/-- C8: segments are processed strictly sequentially — every event of
segment `k` precedes every event of segment `k+1` (the seq-tagged trace is
sorted), capture sequence numbers are strictly increasing, delivery attempts
happen in strictly increasing capture order, and the delivered sequence
numbers form a sublist of the captured ones (no batching or reordering, at
most one segment in flight). -/
theorem sequential_capture_order (st : LoopState) (envs : List Env) :
    List.Pairwise (· ≤ ·) (allSeqs (record_and_process_audio st envs).1) ∧
    List.Pairwise (· < ·) (captureSeqs (record_and_process_audio st envs).1) ∧
    List.Pairwise (· < ·) (deliverySeqs (record_and_process_audio st envs).1) ∧
    (deliverySeqs (record_and_process_audio st envs).1).Sublist
      (captureSeqs (record_and_process_audio st envs).1) := by
  induction envs generalizing st with
  | nil =>
    simp [record_and_process_audio, allSeqs, captureSeqs, deliverySeqs]
  | cons e es ih =>
    unfold record_and_process_audio
    split
    case isTrue halive =>
      have hblock : ∀ x ∈ allSeqs (loopIteration st e).events,
          x = st.segmentCounter := fun x hx => mem_allSeqs_loopIteration hx
      have hrest : ∀ y ∈ allSeqs (record_and_process_audio
          (loopIteration st e).state es).1, st.segmentCounter + 1 ≤ y := by
        intro y hy
        have := mem_allSeqs_run es (loopIteration st e).state y hy
        rw [loopIteration_counter] at this
        exact this
      obtain ⟨ih1, ih2, ih3, ih4⟩ := ih (loopIteration st e).state
      refine ⟨?_, ?_, ?_, ?_⟩
      · simp only [allSeqs, List.filterMap_append]
        rw [List.pairwise_append]
        refine ⟨pairwise_le_of_eq hblock, ih1, ?_⟩
        intro x hx y hy
        have h1 := hblock x hx
        have h2 := hrest y hy
        omega
      · simp only [captureSeqs, List.filterMap_append]
        rw [List.pairwise_append]
        refine ⟨?_, ih2, ?_⟩
        · have := captureSeqs_loopIteration st e
          simp only [captureSeqs] at this
          rw [this]
          simp
        · intro x hx y hy
          have h1 : x = st.segmentCounter :=
            hblock x (mem_captureSeqs_allSeqs hx)
          have h2 := hrest y (mem_captureSeqs_allSeqs hy)
          omega
      · simp only [deliverySeqs, List.filterMap_append]
        rw [List.pairwise_append]
        refine ⟨?_, ih3, ?_⟩
        · rcases deliverySeqs_loopIteration st e with hd | hd <;>
            simp only [deliverySeqs] at hd <;> rw [hd] <;> simp
        · intro x hx y hy
          have h1 : x = st.segmentCounter :=
            hblock x (mem_deliverySeqs_allSeqs hx)
          have h2 := hrest y (mem_deliverySeqs_allSeqs hy)
          omega
      · simp only [deliverySeqs, captureSeqs, List.filterMap_append]
        refine List.Sublist.append ?_ ih4
        have hc := captureSeqs_loopIteration st e
        simp only [captureSeqs] at hc
        rw [hc]
        rcases deliverySeqs_loopIteration st e with hd | hd <;>
          simp only [deliverySeqs] at hd <;> rw [hd] <;> simp
    case isFalse =>
      have hblock : ∀ x ∈ allSeqs (loopIteration st e).events,
          x = st.segmentCounter := fun x hx => mem_allSeqs_loopIteration hx
      refine ⟨pairwise_le_of_eq hblock, ?_, ?_, ?_⟩
      · have := captureSeqs_loopIteration st e
        rw [this]
        simp
      · rcases deliverySeqs_loopIteration st e with hd | hd <;> rw [hd] <;> simp
      · rw [captureSeqs_loopIteration st e]
        rcases deliverySeqs_loopIteration st e with hd | hd <;> rw [hd] <;> simp

theorem nonHb_heartbeatStep (lh : Int) (sk : Bool) (now : Int) (ok : Bool) :
    List.filter (fun e => !isHeartbeatEvent e) (heartbeatStep lh sk now ok).1 = [] := by
  rcases heartbeatStep_cases lh sk now ok with hc | hc | hc <;> rw [hc] <;>
    simp [isHeartbeatEvent]

theorem loopIteration_hb_invariant {st1 st2 : LoopState} {env1 env2 : Env}
    (hc : st1.segmentCounter = st2.segmentCounter)
    (hs : st1.socketTruthy = st2.socketTruthy)
    (he : env1.sameExceptHeartbeat env2) :
    nonHeartbeatEvents (loopIteration st1 env1).events =
      nonHeartbeatEvents (loopIteration st2 env2).events ∧
    (loopIteration st1 env1).state.segmentCounter =
      (loopIteration st2 env2).state.segmentCounter ∧
    (loopIteration st1 env1).state.socketTruthy =
      (loopIteration st2 env2).state.socketTruthy ∧
    (loopIteration st1 env1).alive = (loopIteration st2 env2).alive := by
  obtain ⟨hsox, heng, hsend, hsn, hnow, hclosed, hrec⟩ := he
  rcases hsox2 : env2.sox with ⟨rc, fc, size⟩ | fc | fc
  · rw [loopIteration_completed (hsox.trans hsox2), loopIteration_completed hsox2]
    refine ⟨?_, by simp [hc], by simp [hs], rfl⟩
    simp only [nonHeartbeatEvents, List.filter_append]
    rw [hc, hs, hsend, hsn, heng, nonHb_heartbeatStep, nonHb_heartbeatStep]
  · rw [loopIteration_timedOut (hsox.trans hsox2), loopIteration_timedOut hsox2]
    refine ⟨by rw [hc], by simp [hc], by simp [hs], rfl⟩
  · rw [loopIteration_raised (hsox.trans hsox2), loopIteration_raised hsox2]
    rw [hc, hs, hclosed, hrec]
    split
    · split
      · exact ⟨rfl, rfl, rfl, rfl⟩
      · exact ⟨rfl, rfl, rfl, rfl⟩
    · exact ⟨rfl, rfl, rfl, rfl⟩

theorem run_nonHb_invariant {envs1 envs2 : List Env}
    (hf : List.Forall₂ Env.sameExceptHeartbeat envs1 envs2) :
    ∀ {st1 st2 : LoopState}, st1.segmentCounter = st2.segmentCounter →
      st1.socketTruthy = st2.socketTruthy →
      nonHeartbeatEvents (record_and_process_audio st1 envs1).1 =
        nonHeartbeatEvents (record_and_process_audio st2 envs2).1 := by
  induction hf with
  | nil => intro st1 st2 hc hs; rfl
  | cons hab htail ih =>
    intro st1 st2 hc hs
    obtain ⟨hev, hcnt, hsock, halive⟩ := loopIteration_hb_invariant hc hs hab
    unfold record_and_process_audio
    rw [halive]
    split
    · have iha := ih hcnt hsock
      simp only [nonHeartbeatEvents, List.filter_append] at hev iha ⊢
      rw [hev, iha]
    · exact hev

theorem deliveryEvents_nonHb (tr : List Event) :
    deliveryEvents (nonHeartbeatEvents tr) = deliveryEvents tr := by
  induction tr with
  | nil => rfl
  | cons e t ih =>
    cases e <;>
      simp [deliveryEvents, nonHeartbeatEvents, isDelivery, isHeartbeatEvent,
        List.filter_cons] at ih ⊢ <;>
      exact ih

/-- C9: a heartbeat send failure is fully swallowed — over any run, changing
only which heartbeat writes fail changes no non-heartbeat event: the delivery
attempts (same lines, same order) and every other observable action are
identical, so a dropped heartbeat never aborts the loop nor suppresses any
transcription delivery. -/
theorem heartbeat_failure_isolated (st1 st2 : LoopState)
    (envs1 envs2 : List Env)
    (hf : List.Forall₂ Env.sameExceptHeartbeat envs1 envs2)
    (hc : st1.segmentCounter = st2.segmentCounter)
    (hs : st1.socketTruthy = st2.socketTruthy) :
    deliveryEvents (record_and_process_audio st1 envs1).1 =
      deliveryEvents (record_and_process_audio st2 envs2).1 ∧
    nonHeartbeatEvents (record_and_process_audio st1 envs1).1 =
      nonHeartbeatEvents (record_and_process_audio st2 envs2).1 := by
  have hnb := run_nonHb_invariant hf hc hs
  refine ⟨?_, hnb⟩
  rw [← deliveryEvents_nonHb (record_and_process_audio st1 envs1).1,
    ← deliveryEvents_nonHb (record_and_process_audio st2 envs2).1, hnb]

/-- Witness for C9: one due-heartbeat iteration whose write fails delivers
exactly what the same iteration with a succeeding write delivers. -/
theorem heartbeat_failure_isolated_witness :
    deliveryEvents (record_and_process_audio initialState [envHeartbeatFails]).1 =
      deliveryEvents (record_and_process_audio initialState [envHeartbeatSucceeds]).1 :=
  (heartbeat_failure_isolated initialState initialState [envHeartbeatFails]
    [envHeartbeatSucceeds]
    (List.Forall₂.cons ⟨rfl, rfl, rfl, rfl, rfl, rfl, rfl⟩ List.Forall₂.nil)
    rfl rfl).1

theorem heartbeatStep_due_attempts (lh : Int) (sk : Bool) (now : Int) (ok : Bool)
    (hdue : heartbeat_interval < now - lh) :
    (heartbeatStep lh sk now ok).1 = [Event.heartbeat (sk && ok)] ∧
    (sk = true ∧ ok = true →
      (heartbeatStep lh sk now ok).2 = now) ∧
    (¬(sk = true ∧ ok = true) →
      (heartbeatStep lh sk now ok).2 = lh) := by
  unfold heartbeatStep
  rw [if_pos hdue]
  split
  case isTrue h =>
    obtain ⟨h1, h2⟩ := h
    exact ⟨by simp [h1, h2], fun _ => rfl, fun hk => absurd ⟨h1, h2⟩ hk⟩
  case isFalse h =>
    have hb : (sk && ok) = false := by
      cases sk <;> cases ok <;> simp_all
    rw [hb]
    exact ⟨rfl, fun hk => absurd hk h, fun _ => rfl⟩

theorem heartbeatStep_not_due (lh : Int) (sk : Bool) (now : Int) (ok : Bool)
    (hdue : ¬ heartbeat_interval < now - lh) :
    (heartbeatStep lh sk now ok).1 = [] ∧ (heartbeatStep lh sk now ok).2 = lh := by
  unfold heartbeatStep
  rw [if_neg hdue]
  exact ⟨rfl, rfl⟩

theorem heartbeat_mem_loopIteration_completed {st : LoopState} {env : Env}
    {rc : Int} {fc : Bool} {size : Nat} {b : Bool}
    (hsox : env.sox = SoxOutcome.completed rc fc size)
    (hb : (heartbeatStep st.lastHeartbeat st.socketTruthy env.now
      env.heartbeatOk).1 = [Event.heartbeat b]) :
    Event.heartbeat b ∈ (loopIteration st env).events := by
  rw [loopIteration_completed hsox]
  simp only [List.mem_cons, List.mem_append, hb]
  simp

theorem lastHeartbeat_loopIteration (st : LoopState) (env : Env) :
    (loopIteration st env).state.lastHeartbeat = st.lastHeartbeat ∨
    (∃ rc fc size, env.sox = SoxOutcome.completed rc fc size ∧
      (loopIteration st env).state.lastHeartbeat =
        (heartbeatStep st.lastHeartbeat st.socketTruthy env.now
          env.heartbeatOk).2) := by
  rcases hsox : env.sox with ⟨rc, fc, size⟩ | fc | fc
  · right
    exact ⟨rc, fc, size, rfl, by rw [loopIteration_completed hsox]⟩
  · left; rw [loopIteration_timedOut hsox]
  · left
    rw [loopIteration_raised hsox]
    split
    · split <;> rfl
    · rfl

/-- C10: `last_heartbeat` advances only when the heartbeat write completes
without raising — a failed (or socket-less) attempt leaves it unchanged and
records the failed attempt — so once the 30-second cadence has elapsed and an
attempt fails, the very next completed-sox iteration at any later time
attempts a heartbeat again rather than waiting another 30 seconds. -/
theorem heartbeat_retry_until_success (st : LoopState) (env env2 : Env) :
    ((loopIteration st env).state.lastHeartbeat ≠ st.lastHeartbeat →
      Event.heartbeat true ∈ (loopIteration st env).events ∧
      (loopIteration st env).state.lastHeartbeat = env.now) ∧
    (∀ rc fc size, env.sox = SoxOutcome.completed rc fc size →
      heartbeat_interval < env.now - st.lastHeartbeat →
      ¬(st.socketTruthy = true ∧ env.heartbeatOk = true) →
      Event.heartbeat false ∈ (loopIteration st env).events ∧
      (loopIteration st env).state.lastHeartbeat = st.lastHeartbeat ∧
      (∀ rc2 fc2 size2, env2.sox = SoxOutcome.completed rc2 fc2 size2 →
        env.now ≤ env2.now →
        Event.heartbeat ((loopIteration st env).state.socketTruthy &&
            env2.heartbeatOk) ∈
          (loopIteration (loopIteration st env).state env2).events)) := by
  constructor
  · intro hne
    rcases lastHeartbeat_loopIteration st env with h | ⟨rc, fc, size, hsox, h⟩
    · exact absurd h hne
    · rw [h] at hne ⊢
      by_cases hdue : heartbeat_interval < env.now - st.lastHeartbeat
      · obtain ⟨h1, h2, h3⟩ := heartbeatStep_due_attempts st.lastHeartbeat
          st.socketTruthy env.now env.heartbeatOk hdue
        by_cases hok : st.socketTruthy = true ∧ env.heartbeatOk = true
        · obtain ⟨hsk, hhb⟩ := hok
          refine ⟨?_, h2 ⟨hsk, hhb⟩⟩
          have hb1 : (heartbeatStep st.lastHeartbeat st.socketTruthy env.now
              env.heartbeatOk).1 = [Event.heartbeat true] := by
            rw [h1, hsk, hhb]; rfl
          exact heartbeat_mem_loopIteration_completed hsox hb1
        · exact absurd (h3 hok) hne
      · obtain ⟨h1, h2⟩ := heartbeatStep_not_due st.lastHeartbeat
          st.socketTruthy env.now env.heartbeatOk hdue
        exact absurd h2 hne
  · intro rc fc size hsox hdue hfail
    obtain ⟨h1, h2, h3⟩ := heartbeatStep_due_attempts st.lastHeartbeat
      st.socketTruthy env.now env.heartbeatOk hdue
    have hb0 : (st.socketTruthy && env.heartbeatOk) = false := by
      by_contra hcon
      have hx : (st.socketTruthy && env.heartbeatOk) = true := by
        rcases Bool.eq_false_or_eq_true (st.socketTruthy && env.heartbeatOk)
          with h | h <;> first | exact h | exact absurd h hcon
      rw [Bool.and_eq_true] at hx
      exact hfail hx
    have hmem : Event.heartbeat false ∈ (loopIteration st env).events := by
      refine heartbeat_mem_loopIteration_completed hsox ?_
      rw [h1, hb0]
    have hlast : (loopIteration st env).state.lastHeartbeat = st.lastHeartbeat := by
      rw [loopIteration_completed hsox]
      exact h3 hfail
    refine ⟨hmem, hlast, ?_⟩
    intro rc2 fc2 size2 hsox2 hle
    have hdue2 : heartbeat_interval <
        env2.now - (loopIteration st env).state.lastHeartbeat := by
      rw [hlast]
      omega
    obtain ⟨g1, g2, g3⟩ := heartbeatStep_due_attempts
      (loopIteration st env).state.lastHeartbeat
      (loopIteration st env).state.socketTruthy env2.now env2.heartbeatOk hdue2
    exact heartbeat_mem_loopIteration_completed hsox2 g1

/-- Witness for C10: a due heartbeat whose write fails at `now = 40` leaves
`last_heartbeat = 0` unchanged, records the failed attempt, and the next
iteration at `now = 45` attempts again. -/
theorem heartbeat_retry_until_success_witness :
    Event.heartbeat false ∈ (loopIteration initialState envHeartbeatFails).events ∧
    (loopIteration initialState envHeartbeatFails).state.lastHeartbeat =
      initialState.lastHeartbeat ∧
    Event.heartbeat
        ((loopIteration initialState envHeartbeatFails).state.socketTruthy &&
          envHeartbeatOk.heartbeatOk) ∈
      (loopIteration (loopIteration initialState envHeartbeatFails).state
        envHeartbeatOk).events :=
  have h := (heartbeat_retry_until_success initialState envHeartbeatFails
    envHeartbeatOk).2 0 true 500 rfl (by decide) (by decide)
  ⟨h.1, h.2.1, h.2.2 0 true 500 rfl (by decide)⟩

end STT
